import Mathlib

/-! Overview.
Verification of the Sneaker-Scraper multi-source ingestion and deduplication
pipeline.  Each Python function that the specification talks about is embedded
as an executable Lean definition translated from the repository source
(`image_quality_analyzer.py`, `comprehensive_collection_manager.py`,
`scraper_manager.py`, `enhanced_scraper_manager.py`,
`enhanced_36_hour_collector.py`, `google_drive.py`, `utils.py`), and the
specification claims are settled as theorems about those definitions.
External effects (network, SQLite, PIL/OpenCV decoding) are made explicit:
a fallible step becomes an `Except`/`Option` parameter and the database
becomes an explicit state value threaded through the functions.
-/

namespace SneakerScraper

/-! Section: Content Dedup Engine (`image_quality_analyzer.are_images_similar`)

A perceptual hash is a fixed-width bit string; `imagehash` hex strings are
modelled directly as their underlying bit lists, and the `-` operator on
parsed hashes is the Hamming distance of those bit lists. -/

/-- Number of positions at which two bit strings differ (the value of
`hash1 - hash2` for two parsed `imagehash` values of equal width). -/
def hammingDistance (h1 h2 : List Bool) : Nat :=
  (List.zipWith (fun a b => if a = b then 0 else 1) h1 h2).sum

/-- The four hash variants computed by
`ImageQualityAnalyzer.calculate_image_hashes`. -/
structure ImageHashes where
  phash : List Bool
  dhash : List Bool
  ahash : List Bool
  whash : List Bool
deriving Repr, DecidableEq

/-- Embeds `ImageQualityAnalyzer.are_images_similar(hashes1, hashes2, threshold)`:
two images are similar when both the phash distance and the dhash distance
are at most the threshold (the Python default for `threshold` is `5`).
The other two computed variants (ahash, whash) are not consulted. -/
def are_images_similar (hashes1 hashes2 : ImageHashes) (threshold : Nat) : Bool :=
  decide (hammingDistance hashes1.phash hashes2.phash ≤ threshold) &&
  decide (hammingDistance hashes1.dhash hashes2.dhash ≤ threshold)

/-- A 64-bit hash with the first `n` bits set, used as concrete test data. -/
def hashWithOnes (n : Nat) : List Bool :=
  List.replicate n true ++ List.replicate (64 - n) false

/-! Section: Substring containment helper

Python `needle in haystack` / SQL `ILIKE %needle%` on strings. -/

/-- Predicate `containsSub hay needle = true` holds iff `needle` occurs as a contiguous
substring of `hay` (Python `needle in hay` on character lists). -/
def containsSub (hay needle : List Char) : Bool :=
  match hay with
  | [] => needle.isEmpty
  | c :: t => needle.isPrefixOf (c :: t) || containsSub t needle

/-- Python `str.lower()`, as the character list of the lowered string. -/
def pyLower (s : String) : List Char := s.toList.map Char.toLower

/-! Section: Quality analysis (`image_quality_analyzer.py`) -/

/-- The raw facts about a successfully decoded image file that
`analyze_image_quality` reads off (PIL size, file size, OpenCV sharpness). -/
structure ImgProps where
  width : Nat
  height : Nat
  fileSize : Nat
  sharpness : ℚ
deriving Repr, DecidableEq

/-- The metrics dictionary produced by
`ImageQualityAnalyzer.analyze_image_quality`.  `aspect` is the
`width / height` entry of that dictionary. -/
structure QualityMetrics where
  width : Nat
  height : Nat
  resolution : Nat
  file_size : Nat
  aspect : ℚ
  sharpness : ℚ
deriving Repr, DecidableEq

/-- Embeds `ImageQualityAnalyzer.analyze_image_quality`: on any internal error the
Python function catches the exception and returns the empty dict `{}`
(modelled as `none`); on success it returns the computed metrics. -/
def analyze_image_quality (decoded : Except String ImgProps) : Option QualityMetrics :=
  match decoded with
  | .error _ => none
  | .ok p =>
      some { width := p.width
             height := p.height
             resolution := p.width * p.height
             file_size := p.fileSize
             aspect := if 0 < p.height then (p.width : ℚ) / (p.height : ℚ) else 0
             sharpness := p.sharpness }

/-- Keyword list `ImageQualityAnalyzer.shoe_keywords`. -/
def analyzer_shoe_keywords : List String :=
  ["sneaker", "shoe", "boot", "trainer", "runner", "basketball",
   "nike", "adidas", "jordan", "yeezy", "air", "max", "force",
   "dunk", "blazer", "cortez", "pegasus", "react", "zoom",
   "ultra", "boost", "nmd", "stan", "smith", "gazelle",
   "superstar", "continental", "forum", "samba"]

/-- Keyword list `ImageQualityAnalyzer.non_shoe_indicators`. -/
def analyzer_non_shoe_indicators : List String :=
  ["logo", "brand", "text", "banner", "advertisement", "ad",
   "person", "model", "face", "body", "lifestyle", "outfit",
   "background", "pattern", "texture", "abstract", "graphic"]

/-- Embeds `sum(1 for keyword in keywords if keyword in url_lower)`. -/
def keywordScore (keywords : List String) (urlLower : List Char) : Nat :=
  (keywords.filter (fun k => containsSub urlLower k.toList)).length

/-- Result dictionary of `detect_shoe_content` (the `confidence` entry is
derived from the scores and not read anywhere, so it is omitted). -/
structure ShoeDetection where
  is_likely_shoe : Bool
  shoe_score : Nat
  non_shoe_score : Nat
deriving Repr, DecidableEq

/-- Embeds `ImageQualityAnalyzer.detect_shoe_content(image_path, image_url)`.
`ownException` is `some msg` when a statement of the function body itself
raises (the `except` branch, which returns a dictionary with
`is_likely_shoe = True`); `decoded` is the decoding outcome consumed by the
nested `analyze_image_quality` call, whose internal errors are swallowed
there and surface here only as the empty metrics dict (so `resolution` and
`aspect_ratio` fall back to the `.get` defaults `0` and `1`). -/
def detect_shoe_content (ownException : Option String) (imageUrl : String)
    (decoded : Except String ImgProps) : ShoeDetection :=
  match ownException with
  | some _ => { is_likely_shoe := true, shoe_score := 0, non_shoe_score := 0 }
  | none =>
      let urlLower := pyLower imageUrl
      let shoeScore := keywordScore analyzer_shoe_keywords urlLower
      let nonShoeScore := keywordScore analyzer_non_shoe_indicators urlLower
      let isLikelyShoe := decide (nonShoeScore < shoeScore) && decide (0 < shoeScore)
      let qualityMetrics := analyze_image_quality decoded
      let resolution := (qualityMetrics.map (fun q => q.resolution)).getD 0
      let step1 : Bool × Nat :=
        if resolution < 10000 then (false, nonShoeScore + 2) else (isLikelyShoe, nonShoeScore)
      let aspect := (qualityMetrics.map (fun q => q.aspect)).getD 1
      let step2 : Bool × Nat :=
        if 3 < aspect ∨ aspect < 3 / 10 then (false, step1.2 + 1) else (step1.1, step1.2)
      { is_likely_shoe := step2.1, shoe_score := shoeScore, non_shoe_score := step2.2 }

/-- Embeds `ImageQualityAnalyzer.is_high_quality_image(quality_metrics, shoe_detection)`:
empty metrics fail; otherwise resolution ≥ 50000, sharpness ≥ 100,
file size ≥ 5000 (all inclusive) and the shoe-content flag must all hold. -/
def is_high_quality_image (qualityMetrics : Option QualityMetrics)
    (shoeDetection : ShoeDetection) : Bool :=
  match qualityMetrics with
  | none => false
  | some q =>
      decide (50000 ≤ q.resolution) && decide ((100 : ℚ) ≤ q.sharpness) &&
      decide (5000 ≤ q.file_size) && shoeDetection.is_likely_shoe

/-! Section: Byte-size gate (`comprehensive_collection_manager._download_and_validate_image`)

The size test in `_download_and_validate_image` is
`if len(response.content) < self.min_file_size or
    len(response.content) > self.max_file_size: return False`;
`byte_size_check` is `true` exactly when that rejection does not fire. -/

/-- Constant `ComprehensiveCollectionManager.min_file_size` (`5 * 1024`). -/
def manager_min_file_size : Nat := 5 * 1024

/-- Constant `ComprehensiveCollectionManager.max_file_size` (`10 * 1024 * 1024`). -/
def manager_max_file_size : Nat := 10 * 1024 * 1024

/-- The byte-size gate of `_download_and_validate_image`, parameterised by the
configured bounds: the candidate survives iff its size is not below the
minimum and not above the maximum. -/
def byte_size_check (contentLength minFileSize maxFileSize : Nat) : Bool :=
  !(decide (contentLength < minFileSize) || decide (maxFileSize < contentLength))

/-! Section: Price extraction (`utils.extract_price`) -/

/-- Numeric value of a decimal digit character. -/
def digitVal (c : Char) : Nat := c.toNat - 48

/-- Split a character list into its maximal leading digit run and the rest
(the greedy `\d+` part of the regex once anchored at a digit). -/
def digitRun : List Char → List Char × List Char
  | [] => ([], [])
  | c :: cs =>
      if c.isDigit then
        let r := digitRun cs
        (c :: r.1, r.2)
      else ([], c :: cs)

/-- Leftmost match of the pattern `[\$]?(\d+(?:,\d{3})*(?:\.\d{2})?)` on a
comma-free character list: scan for the first digit, capture the maximal
digit run there, and additionally capture exactly two decimal digits when a
dot followed by at least two digits comes next.  (The optional `$` sits
outside the capture group and the `(?:,\d{3})*` part can only match the empty
string because `extract_price` deletes all commas first, so neither affects
the captured text.) -/
def priceSearch : List Char → Option (List Char × Option (Char × Char))
  | [] => none
  | c :: cs =>
      if c.isDigit then
        let r := digitRun (c :: cs)
        match r.2 with
        | '.' :: d1 :: d2 :: _ =>
            if d1.isDigit && d2.isDigit then some (r.1, some (d1, d2))
            else some (r.1, none)
        | _ => some (r.1, none)
      else priceSearch cs

/-- Value of a digit run read in base 10. -/
def digitsToNat (ds : List Char) : Nat :=
  ds.foldl (fun a c => 10 * a + digitVal c) 0

/-- Embeds `utils.extract_price(text)`: empty/falsy input gives `0.0`; otherwise
commas are removed, the regex above is searched, a failed search gives `0.0`,
and a match is parsed as `float` of the captured group (integer part plus an
optional two-digit cents part). -/
def extract_price (text : String) : ℚ :=
  if text = "" then 0
  else
    match priceSearch (text.toList.filter (fun c => c ≠ ',')) with
    | none => 0
    | some (run, cents) =>
        (digitsToNat run : ℚ) +
          (match cents with
           | some (d1, d2) => ((10 * digitVal d1 + digitVal d2 : Nat) : ℚ) / 100
           | none => 0)

/-! Section: Non-shoe content gate
(`comprehensive_collection_manager._is_non_shoe_image`) -/

/-- Keyword list `ComprehensiveCollectionManager.non_shoe_keywords`. -/
def manager_non_shoe_keywords : List String :=
  ["person", "people", "model", "wearing", "outfit", "fashion",
   "lifestyle", "street", "portrait", "face", "body", "legs",
   "feet", "socks", "pants", "jeans", "shorts", "dress"]

/-- Keyword list `ComprehensiveCollectionManager.shoe_keywords`. -/
def manager_shoe_keywords : List String :=
  ["sneaker", "shoe", "jordan", "nike", "adidas", "yeezy",
   "dunk", "air max", "force", "boost", "sole", "laces",
   "upper", "midsole", "outsole", "toe box", "heel"]

/-- Embeds `ComprehensiveCollectionManager._is_non_shoe_image(url, image)`.
The URL keyword scan runs first; the pixel analysis (numpy conversion,
aspect ratio `width / height`, Canny edge density) is abstracted as
`analysis`, an `Except` carrying the pair `(aspect ratio, edge density)` on
success.  When any of those statements raises, the `except` branch returns
`False` (default to keeping the image).  The `has_shoe_keyword` scan in the
source computes a value and then does nothing with it (`pass`), so it does
not appear here. -/
def is_non_shoe_image (url : String) (analysis : Except String (ℚ × ℚ)) : Bool :=
  let urlLower := pyLower url
  if manager_non_shoe_keywords.any (fun k => containsSub urlLower k.toList) then true
  else
    match analysis with
    | .error _ => false
    | .ok (aspect, edgeDensity) =>
        if aspect < 1 / 2 ∨ 3 < aspect then true
        else if 3 / 10 < edgeDensity then true
        else false

/-! Section: Budget Tracker (`comprehensive_collection_manager._scrape_with_api`)

`_scrape_with_api` guards on `self.api_requests >= self.api_limit` before any
network activity, sleeps for the minimum inter-request interval, posts to the
ScrapeNinja endpoint, and increments `self.api_requests` right after the post
returns.  If `requests.post` raises, the surrounding `except` swallows the
error and the counter is not incremented. -/

/-- Outcome of one `requests.post` call: either the call raises, or it
returns a response with a status code and a body. -/
inductive NetOutcome where
  | raised : NetOutcome
  | response (status : Nat) (body : String) : NetOutcome
deriving Repr, DecidableEq

/-- Constant `ComprehensiveCollectionManager.api_limit` (`200`). -/
def manager_api_limit : Nat := 200

/-- One call of `_scrape_with_api`, parameterised by the configured
`api_limit` and by the network outcome of the `requests.post` it would make.
Returns the scrape result, the updated `api_requests` counter, and whether a
network call was actually issued. -/
def scrape_with_api (apiLimit : Nat) (outcome : NetOutcome) (apiRequests : Nat) :
    Option String × Nat × Bool :=
  if apiLimit ≤ apiRequests then (none, apiRequests, false)
  else
    match outcome with
    | .raised => (none, apiRequests, true)
    | .response status body =>
        ((if status = 200 then some body else none), apiRequests + 1, true)

/-- A run of successive `_scrape_with_api` calls (one per queued query),
threading the `api_requests` counter and counting the network calls that were
actually issued. -/
def runScrapes (apiLimit : Nat) (outcomes : List NetOutcome) (apiRequests : Nat) :
    Nat × Nat :=
  match outcomes with
  | [] => (apiRequests, 0)
  | o :: rest =>
      let r := scrape_with_api apiLimit o apiRequests
      let tail := runScrapes apiLimit rest r.2.1
      (tail.1, (if r.2.2 then 1 else 0) + tail.2)

/-- Number of outcomes in a run that raise. -/
def countRaised (outcomes : List NetOutcome) : Nat :=
  (outcomes.filter (fun o => o = NetOutcome.raised)).length

/-! Section: Coordinator termination and reporting (claim C7)

`ComprehensiveCollectionManager.run_comprehensive_collection` runs three
phases and the final report inside one `try`; its `except Exception` branch
only logs and bumps the error counter, and a `KeyboardInterrupt` is not
caught at all.  `Enhanced36HourCollector.run_collection` catches both
`KeyboardInterrupt` and `Exception` around its loop and emits the final
report after the `try`/`except` in straight-line code. -/

/-- How one phase (or the collection loop) ends: normally, with an
`Exception`, or with a `KeyboardInterrupt`. -/
inductive PhaseOutcome where
  | ok : PhaseOutcome
  | exn : PhaseOutcome
  | interrupt : PhaseOutcome
deriving Repr, DecidableEq

/-- Observable end state of a coordinator run: whether the final report was
emitted, the `errors` counter delta, and whether an uncaught exception
escaped the method. -/
structure RunResult where
  reportEmitted : Bool
  errors : Nat
  escaped : Bool
deriving Repr, DecidableEq

/-- Embeds `run_comprehensive_collection`, as a function of how each of its three
phases ends.  `_generate_final_report()` is the last statement of the `try`
block, so it runs only when all phases complete normally; an `Exception` is
caught (log + `errors += 1`) without reporting, and a `KeyboardInterrupt`
escapes uncaught without reporting. -/
def run_comprehensive_collection (p1 p2 p3 : PhaseOutcome) : RunResult :=
  match p1 with
  | .interrupt => { reportEmitted := false, errors := 0, escaped := true }
  | .exn => { reportEmitted := false, errors := 1, escaped := false }
  | .ok =>
      match p2 with
      | .interrupt => { reportEmitted := false, errors := 0, escaped := true }
      | .exn => { reportEmitted := false, errors := 1, escaped := false }
      | .ok =>
          match p3 with
          | .interrupt => { reportEmitted := false, errors := 0, escaped := true }
          | .exn => { reportEmitted := false, errors := 1, escaped := false }
          | .ok => { reportEmitted := true, errors := 0, escaped := false }

/-- Embeds `Enhanced36HourCollector.run_collection`, as a function of how its
collection loop ends: the final report block sits after the
`try`/`except KeyboardInterrupt`/`except Exception`, so it is reached on
every outcome. -/
def run_collection (loopOutcome : PhaseOutcome) : RunResult :=
  match loopOutcome with
  | .ok => { reportEmitted := true, errors := 0, escaped := false }
  | .exn => { reportEmitted := true, errors := 1, escaped := false }
  | .interrupt => { reportEmitted := true, errors := 0, escaped := false }

/-! Section: Object storage (`google_drive.GoogleDriveManager`) -/

/-- One stored Drive object (file or folder); `parent` is its parent folder
id when it has one. -/
structure DriveFile where
  id : Nat
  name : String
  parent : Option Nat
  isFolder : Bool
deriving Repr, DecidableEq

/-- Drive contents plus the id the service will assign to the next created
object.  The `files().list` queries return files in a fixed order, modelled
by the list order. -/
structure DriveState where
  files : List DriveFile
  freshId : Nat
deriving Repr, DecidableEq

/-- Does a query filter of `find_file_by_name` / `find_folder_by_name` match
this stored object?  A `none` parent means the query has no `in parents`
clause and matches everywhere. -/
def driveParentMatches (parent : Option Nat) (f : DriveFile) : Bool :=
  match parent with
  | none => true
  | some p => f.parent = some p

/-- Embeds `GoogleDriveManager.find_file_by_name(file_name, parent_folder_id)`:
first listed non-trashed object with that name (the query does not filter on
mime type, so folders can match too). -/
def find_file_by_name (st : DriveState) (fileName : String) (parent : Option Nat) :
    Option DriveFile :=
  st.files.find? (fun f => f.name == fileName && driveParentMatches parent f)

/-- Embeds `GoogleDriveManager.find_folder_by_name(folder_name, parent_folder_id)`:
like `find_file_by_name` but restricted to folder mime type. -/
def find_folder_by_name (st : DriveState) (folderName : String) (parent : Option Nat) :
    Option DriveFile :=
  st.files.find? (fun f => f.isFolder && f.name == folderName && driveParentMatches parent f)

/-- Embeds `GoogleDriveManager.create_folder(folder_name, parent_folder_id)`:
creates the folder object and returns its id. -/
def create_folder (st : DriveState) (folderName : String) (parent : Option Nat) :
    Nat × DriveState :=
  (st.freshId,
   { files := st.files ++ [{ id := st.freshId, name := folderName, parent := parent,
                             isFolder := true }],
     freshId := st.freshId + 1 })

/-- Embeds `GoogleDriveManager.get_or_create_folder(folder_name, parent_folder_id)`. -/
def get_or_create_folder (st : DriveState) (folderName : String) (parent : Option Nat) :
    Nat × DriveState :=
  match find_folder_by_name st folderName parent with
  | some f => (f.id, st)
  | none => create_folder st folderName parent

/-- Embeds `GoogleDriveManager.upload_image(file_path, file_name, folder_name)`.
`rootFolder` is `self.folder_id`.  Returns the external id handed back to the
caller, the new Drive state, and whether a new upload was performed.  When a
file of that name already exists in the target folder the existing id is
returned and nothing is uploaded. -/
def upload_image (st : DriveState) (fileName : String) (folderName : Option String)
    (rootFolder : Option Nat) : Option Nat × DriveState × Bool :=
  let target : Option Nat × DriveState :=
    match folderName with
    | none => (rootFolder, st)
    | some fn =>
        let r := get_or_create_folder st fn rootFolder
        (some r.1, r.2)
  match find_file_by_name target.2 fileName target.1 with
  | some f => (some f.id, target.2, false)
  | none =>
      let st1 := target.2
      (some st1.freshId,
       ({ files := st1.files ++ [{ id := st1.freshId, name := fileName,
                                   parent := target.1, isFolder := false }],
          freshId := st1.freshId + 1 }),
       true)

/-! Section: Metadata duplicate prevention (claim C2)

`ComprehensiveCollectionManager` keeps an in-memory `processed_names` set,
seeded by `_load_existing_data` from the `sneakers` table (`name` and `sku`
columns, each added via `.lower().strip()` when truthy) and consulted plus
extended by `_save_metadata`.  `EnhancedScraperManager._save_sneaker_data`
instead queries the table directly with `name ILIKE %name%`. -/

/-- Python `.strip()` on a character list. -/
def stripChars (l : List Char) : List Char :=
  ((l.dropWhile Char.isWhitespace).reverse.dropWhile Char.isWhitespace).reverse

/-- Normalisation `name.lower().strip()`, the key used by `_load_existing_data` and
`_save_metadata`. -/
def normKey (s : String) : List Char := stripChars (pyLower s)

/-- A row of the `sneakers` table, restricted to the columns the duplicate
prevention reads (`name`, `sku`). -/
structure CatalogRow where
  name : String
  sku : Option String
deriving Repr, DecidableEq

/-- An incoming metadata record, restricted to the fields the save paths
read for duplicate prevention. -/
structure RawMeta where
  name : String
  sku : Option String
deriving Repr, DecidableEq

/-- The keys `_load_existing_data` derives from one row: the normalised name
when truthy, then the normalised sku when truthy. -/
def rowKeys (r : CatalogRow) : List (List Char) :=
  (if r.name ≠ "" then [normKey r.name] else []) ++
    (match r.sku with
     | some k => if k ≠ "" then [normKey k] else []
     | none => [])

/-- Embeds `ComprehensiveCollectionManager._load_existing_data`: the
`processed_names` set loaded from the catalog (as a list; only membership
matters). -/
def load_existing_data (rows : List CatalogRow) : List (List Char) :=
  rows.foldr (fun r acc => rowKeys r ++ acc) []

/-- In-memory state of the comprehensive manager relevant to `_save_metadata`:
the database `sneakers` rows and the `processed_names` set. -/
structure ManagerState where
  catalog : List CatalogRow
  processedNames : List (List Char)
deriving Repr, DecidableEq

/-- Embeds `ComprehensiveCollectionManager._save_metadata(data)`: the incoming name
is normalised and checked against `processed_names`; a hit prevents the
insert, otherwise the row is inserted (the `INSERT` has no `sku` column) and
the key recorded.  Returns whether a row was saved. -/
def save_metadata (data : RawMeta) (st : ManagerState) : Bool × ManagerState :=
  let nameKey := normKey data.name
  if nameKey ∈ st.processedNames then (false, st)
  else
    (true,
     { catalog := st.catalog ++ [{ name := data.name, sku := none }],
       processedNames := nameKey :: st.processedNames })

/-- The save loop of one comprehensive-manager run over the metadata records
produced for a (source, query) worklist. -/
def runSaves (items : List RawMeta) (st : ManagerState) : ManagerState :=
  match items with
  | [] => st
  | d :: rest => runSaves rest (save_metadata d st).2

/-- One ingestion run of the comprehensive manager: construct the manager
(loading `processed_names` from the current catalog) and run the save loop;
the result is the final catalog. -/
def runIngestion (items : List RawMeta) (catalog : List CatalogRow) : List CatalogRow :=
  (runSaves items { catalog := catalog, processedNames := load_existing_data catalog }).catalog

/-- Embeds `EnhancedScraperManager._save_sneaker_data(db, data, source)`: falsy
names are rejected; then `db.query(Sneaker).filter(Sneaker.name.ilike(f"%{name}%"))`
checks whether any existing row's name contains the incoming name
case-insensitively; otherwise the row is inserted. -/
def save_sneaker_data (data : RawMeta) (catalog : List CatalogRow) : Bool × List CatalogRow :=
  if data.name = "" then (false, catalog)
  else if catalog.any (fun r => containsSub (pyLower r.name) (pyLower data.name)) then
    (false, catalog)
  else (true, catalog ++ [{ name := data.name, sku := data.sku }])

/-- The save loop of one enhanced-manager run. -/
def runSavesEnh (items : List RawMeta) (catalog : List CatalogRow) : List CatalogRow :=
  match items with
  | [] => catalog
  | d :: rest => runSavesEnh rest (save_sneaker_data d catalog).2

/-- After a save, the saved name is visible to the enhanced manager's
duplicate check: either the name was falsy (and nothing was saved) or some
catalog row's name contains it case-insensitively. -/
def savedNameVisible (catalog : List CatalogRow) (d : RawMeta) : Prop :=
  d.name = "" ∨ ∃ r ∈ catalog, containsSub (pyLower r.name) (pyLower d.name) = true

/-! Section: Entity Resolver (`scraper_manager._process_sneaker_data`) -/

/-- A row of the `sneakers` ORM table as the resolver sees it.  Dates are
abstracted to `Nat` (their parsed value). -/
structure Sneaker where
  id : Nat
  name : String
  brand : String
  model : String
  colorway : Option String
  sku : Option String
  retail_price : Option ℚ
  release_date : Option Nat
  description : Option String
deriving Repr, DecidableEq

/-- The incoming scraped dict, with `None`/absent fields as `none`.
`release_date` carries the already-parsed date (`_parse_date` abstracted). -/
structure SneakerData where
  name : Option String
  brand : Option String
  colorway : Option String
  sku : Option String
  retail_price : Option ℚ
  release_date : Option Nat
  description : Option String
  current_price : Option ℚ
  platform : Option String
deriving Repr, DecidableEq

/-- Python truthiness of `data.get(key)` for a string field. -/
def truthyStr (v : Option String) : Bool :=
  match v with
  | some s => decide (s ≠ "")
  | none => false

/-- Python truthiness of `data.get(key)` for a numeric field. -/
def truthyNum (v : Option ℚ) : Bool :=
  match v with
  | some q => decide (q ≠ 0)
  | none => false

/-- Embeds `db.query(Sneaker).filter(Sneaker.sku == data["sku"]).first()`:
first row whose `sku` column equals the given string exactly. -/
def findBySku (catalog : List Sneaker) (sku : String) : Option Sneaker :=
  catalog.find? (fun s => s.sku == some sku)

/-- Embeds the query filtering on name with `ilike` double-wildcards:
first row whose name contains the incoming name, case-insensitively. -/
def findByNameIlike (catalog : List Sneaker) (name : String) : Option Sneaker :=
  catalog.find? (fun s => containsSub (pyLower s.name) (pyLower name))

/-- The existing-sneaker lookup at the top of
`ScraperManager._process_sneaker_data`: an exact SKU match when the incoming
SKU is truthy, else the `ilike` name-containment match when the incoming name
is truthy. -/
def resolveExisting (catalog : List Sneaker) (d : SneakerData) : Option Sneaker :=
  let bySku := if truthyStr d.sku then findBySku catalog (d.sku.getD "") else none
  match bySku with
  | some s => some s
  | none => if truthyStr d.name then findByNameIlike catalog (d.name.getD "") else none

/-- Embeds `ScraperManager._extract_model(name)`: the first two words when there are
at least two, else the whole name. -/
def sm_extract_model (name : String) : String :=
  let words := (name.splitOn " ").filter (fun w => w ≠ "")
  if 2 ≤ words.length then " ".intercalate (words.take 2) else name

/-- A `price_history` row as `_process_sneaker_data` creates it. -/
structure PriceRow where
  sneaker_id : Nat
  price : ℚ
  platform : String
deriving Repr, DecidableEq

/-- The resolver-visible database state: `sneakers` rows, `price_history`
rows, and the id the ORM will assign to the next inserted sneaker. -/
structure ScraperDB where
  sneakers : List Sneaker
  prices : List PriceRow
  freshId : Nat
deriving Repr, DecidableEq

/-- Embeds `ScraperManager._process_sneaker_data(sneaker_data, db)`.  On a match
the existing row is used as-is (no column of it is assigned); otherwise a new
`Sneaker` is created from the incoming dict.  Either way a `price_history`
row is added when `current_price` is truthy.  Image handling only creates
`SneakerImage` rows and touches no `Sneaker` column, so it is not modelled. -/
def process_sneaker_data (d : SneakerData) (db : ScraperDB) : ScraperDB :=
  match resolveExisting db.sneakers d with
  | some s =>
      { db with
        prices := db.prices ++
          (if truthyNum d.current_price then
            [{ sneaker_id := s.id, price := d.current_price.getD 0,
               platform := d.platform.getD "Unknown" }]
           else []) }
  | none =>
      let s : Sneaker :=
        { id := db.freshId
          name := d.name.getD ""
          brand := d.brand.getD "Unknown"
          model := sm_extract_model (d.name.getD "")
          colorway := d.colorway
          sku := d.sku
          retail_price := d.retail_price
          release_date := d.release_date
          description := d.description }
      { sneakers := db.sneakers ++ [s]
        prices := db.prices ++
          (if truthyNum d.current_price then
            [{ sneaker_id := s.id, price := d.current_price.getD 0,
               platform := d.platform.getD "Unknown" }]
           else [])
        freshId := db.freshId + 1 }

/-- Modelled from the spec (for comparison with `resolveExisting`): the
Entity Resolver algorithm as section 4.3 words it — "first try exact match on
normalized SKU if present; else exact match on normalized `(brand, name)`
pair; else fuzzy match using a normalized-substring containment check between
the incoming name and any existing name of the same brand". -/
def spec_resolve (catalog : List Sneaker) (d : SneakerData) : Option Sneaker :=
  let bySku :=
    if truthyStr d.sku then
      catalog.find? (fun s => s.sku.map pyLower == some (pyLower (d.sku.getD "")))
    else none
  match bySku with
  | some s => some s
  | none =>
      match catalog.find?
          (fun s => pyLower s.brand == pyLower (d.brand.getD "") &&
            pyLower s.name == pyLower (d.name.getD "")) with
      | some s => some s
      | none =>
          catalog.find?
            (fun s => pyLower s.brand == pyLower (d.brand.getD "") &&
              (containsSub (pyLower s.name) (pyLower (d.name.getD "")) ||
               containsSub (pyLower (d.name.getD "")) (pyLower s.name)))

/-- Concrete existing catalog row for the resolver claims: a Nike entry whose
name contains "dunk low". -/
def exSneaker : Sneaker :=
  { id := 7, name := "Dunk Low Panda", brand := "Nike", model := "Dunk Low",
    colorway := some "Panda", sku := none, retail_price := none,
    release_date := none, description := none }

/-- Concrete incoming record for claim C4: an Adidas item with no SKU whose
name is contained in the existing Nike entry's name. -/
def exIncoming : SneakerData :=
  { name := some "dunk low", brand := some "Adidas", colorway := none,
    sku := none, retail_price := none, release_date := none,
    description := none, current_price := none, platform := some "GOAT" }

/-- Concrete incoming record for claim C5: matches `exSneaker` by name
containment and carries a description the existing row lacks. -/
def exEnrich : SneakerData :=
  { name := some "Dunk Low", brand := some "Nike", colorway := none,
    sku := none, retail_price := none, release_date := none,
    description := some "Classic black and white colorway",
    current_price := none, platform := some "StockX" }

/-- Concrete database for claim C5: just the one existing row with an empty
description. -/
def exDB : ScraperDB :=
  { sneakers := [exSneaker], prices := [], freshId := 8 }

/-! Section: Helper lemmas -/

theorem priceSearch_none (l : List Char) (h : ∀ c ∈ l, c.isDigit = false) :
    priceSearch l = none := by
  induction l with
  | nil => rfl
  | cons c cs ih =>
      have hc := h c (List.mem_cons_self c cs)
      rw [priceSearch]
      simp [hc]
      exact ih fun x hx => h x (List.mem_cons_of_mem c hx)

theorem detect_shoe_decode_error (url : String) (e : String) :
    (detect_shoe_content none url (Except.error e)).is_likely_shoe = false := by
  simp [detect_shoe_content, analyze_image_quality]
  split <;> rfl

theorem scrape_counter_le (limit : Nat) (o : NetOutcome) (n : Nat) (h : n ≤ limit) :
    (scrape_with_api limit o n).2.1 ≤ limit := by
  unfold scrape_with_api
  split
  · exact h
  · rename_i hlt
    cases o with
    | raised => exact h
    | response status body => simp; omega

theorem runScrapes_counter_le (limit : Nat) (outcomes : List NetOutcome) :
    ∀ start, start ≤ limit → (runScrapes limit outcomes start).1 ≤ limit := by
  induction outcomes with
  | nil => intro start h; exact h
  | cons o rest ih =>
      intro start h
      rw [runScrapes]
      exact ih _ (scrape_counter_le limit o start h)

theorem countRaised_cons (o : NetOutcome) (rest : List NetOutcome) :
    countRaised (o :: rest) =
      (if o = NetOutcome.raised then 1 else 0) + countRaised rest := by
  cases o <;> (simp [countRaised]; try omega)

theorem runScrapes_issued_le (limit : Nat) (outcomes : List NetOutcome) :
    ∀ start, (runScrapes limit outcomes start).2 ≤ (limit - start) + countRaised outcomes := by
  induction outcomes with
  | nil => intro start; simp [runScrapes, countRaised]
  | cons o rest ih =>
      intro start
      rw [runScrapes, countRaised_cons]
      by_cases hle : limit ≤ start
      · have hstep : scrape_with_api limit o start = (none, start, false) := by
          unfold scrape_with_api; simp [hle]
        rw [hstep]
        have := ih start
        cases o <;> (simp; omega)
      · have hlt : start < limit := by omega
        cases o with
        | raised =>
            have hstep : scrape_with_api limit NetOutcome.raised start = (none, start, true) := by
              unfold scrape_with_api; simp [hle]
            rw [hstep]
            have := ih start
            simp
            omega
        | response status body =>
            have hstep : scrape_with_api limit (NetOutcome.response status body) start =
                ((if status = 200 then some body else none), start + 1, true) := by
              unfold scrape_with_api; simp [hle]
            rw [hstep]
            have := ih (start + 1)
            simp
            omega

theorem load_existing_cons (a : CatalogRow) (t : List CatalogRow) :
    load_existing_data (a :: t) = rowKeys a ++ load_existing_data t := rfl

theorem load_existing_append (l1 l2 : List CatalogRow) :
    load_existing_data (l1 ++ l2) = load_existing_data l1 ++ load_existing_data l2 := by
  induction l1 with
  | nil => rfl
  | cons a t ih => simp [load_existing_cons, ih, List.append_assoc]

theorem save_metadata_mem (d : RawMeta) (st : ManagerState) :
    normKey d.name ∈ (save_metadata d st).2.processedNames := by
  by_cases hmem : normKey d.name ∈ st.processedNames <;> simp [save_metadata, hmem]

theorem save_metadata_mono (d : RawMeta) (st : ManagerState) (k : List Char)
    (h : k ∈ st.processedNames) : k ∈ (save_metadata d st).2.processedNames := by
  by_cases hmem : normKey d.name ∈ st.processedNames <;> simp [save_metadata, hmem, h]

theorem runSaves_mono (items : List RawMeta) :
    ∀ (st : ManagerState) (k : List Char), k ∈ st.processedNames →
      k ∈ (runSaves items st).processedNames := by
  induction items with
  | nil => intro st k h; exact h
  | cons d rest ih =>
      intro st k h
      rw [runSaves]
      exact ih _ k (save_metadata_mono d st k h)

theorem save_metadata_inv (d : RawMeta) (hd : d.name ≠ "") (st : ManagerState)
    (hInv : ∀ k ∈ st.processedNames, k ∈ load_existing_data st.catalog) :
    ∀ k ∈ (save_metadata d st).2.processedNames,
      k ∈ load_existing_data (save_metadata d st).2.catalog := by
  by_cases hmem : normKey d.name ∈ st.processedNames
  · simpa [save_metadata, hmem] using hInv
  · intro k hk
    simp only [save_metadata, hmem, if_neg, not_false_iff, if_false] at hk ⊢
    rw [load_existing_append]
    rcases List.mem_cons.mp hk with hk | hk
    · subst hk
      apply List.mem_append_right
      simp [load_existing_cons, rowKeys, hd]
    · exact List.mem_append_left _ (hInv k hk)

theorem runSaves_inv_mem (items : List RawMeta) :
    ∀ (st : ManagerState), (∀ d ∈ items, d.name ≠ "") →
      (∀ k ∈ st.processedNames, k ∈ load_existing_data st.catalog) →
      (∀ k ∈ (runSaves items st).processedNames,
          k ∈ load_existing_data (runSaves items st).catalog) ∧
        (∀ d ∈ items, normKey d.name ∈ (runSaves items st).processedNames) := by
  induction items with
  | nil =>
      intro st _ hInv
      exact ⟨hInv, by simp⟩
  | cons d rest ih =>
      intro st hall hInv
      have hd : d.name ≠ "" := hall d (List.mem_cons_self d rest)
      have hInv2 := save_metadata_inv d hd st hInv
      obtain ⟨h1, h2⟩ := ih (save_metadata d st).2
        (fun x hx => hall x (List.mem_cons_of_mem d hx)) hInv2
      rw [runSaves]
      refine ⟨h1, ?_⟩
      intro x hx
      rcases List.mem_cons.mp hx with hx | hx
      · subst hx
        exact runSaves_mono rest _ _ (save_metadata_mem x st)
      · exact h2 x hx

theorem runSaves_noop (items : List RawMeta) (st : ManagerState)
    (h : ∀ d ∈ items, normKey d.name ∈ st.processedNames) : runSaves items st = st := by
  induction items with
  | nil => rfl
  | cons d rest ih =>
      rw [runSaves]
      have hd := h d (List.mem_cons_self d rest)
      have hsave : save_metadata d st = (false, st) := by
        unfold save_metadata
        simp [hd]
      rw [hsave]
      exact ih fun x hx => h x (List.mem_cons_of_mem d hx)

theorem isPrefixOf_self (l : List Char) : l.isPrefixOf l = true := by
  induction l with
  | nil => rfl
  | cons c t ih => simp [List.isPrefixOf, ih]

theorem containsSub_self (l : List Char) : containsSub l l = true := by
  cases l with
  | nil => rfl
  | cons c t => rw [containsSub]; simp [isPrefixOf_self]

theorem save_sneaker_extends (d : RawMeta) (catalog : List CatalogRow) :
    ∃ ext, (save_sneaker_data d catalog).2 = catalog ++ ext := by
  unfold save_sneaker_data
  split
  · exact ⟨[], by simp⟩
  · split
    · exact ⟨[], by simp⟩
    · exact ⟨[{ name := d.name, sku := d.sku }], rfl⟩

theorem save_sneaker_visible (d : RawMeta) (catalog : List CatalogRow) :
    savedNameVisible (save_sneaker_data d catalog).2 d := by
  unfold save_sneaker_data
  split
  · exact Or.inl (by assumption)
  · split
    · rename_i hname hany
      rcases List.any_eq_true.mp hany with ⟨r, hr, hc⟩
      exact Or.inr ⟨r, hr, hc⟩
    · exact Or.inr ⟨{ name := d.name, sku := d.sku }, by simp, containsSub_self _⟩

theorem visible_mono (catalog ext : List CatalogRow) (d : RawMeta)
    (h : savedNameVisible catalog d) : savedNameVisible (catalog ++ ext) d := by
  rcases h with h | ⟨r, hr, hc⟩
  · exact Or.inl h
  · exact Or.inr ⟨r, List.mem_append_left _ hr, hc⟩

theorem runSavesEnh_extends (items : List RawMeta) :
    ∀ catalog, ∃ ext, runSavesEnh items catalog = catalog ++ ext := by
  induction items with
  | nil => intro catalog; exact ⟨[], by simp [runSavesEnh]⟩
  | cons d rest ih =>
      intro catalog
      rw [runSavesEnh]
      obtain ⟨e1, he1⟩ := save_sneaker_extends d catalog
      obtain ⟨e2, he2⟩ := ih (save_sneaker_data d catalog).2
      exact ⟨e1 ++ e2, by rw [he2, he1, List.append_assoc]⟩

theorem runSavesEnh_visible (items : List RawMeta) :
    ∀ catalog, ∀ d ∈ items, savedNameVisible (runSavesEnh items catalog) d := by
  induction items with
  | nil => intro catalog d hd; cases hd
  | cons d rest ih =>
      intro catalog x hx
      rw [runSavesEnh]
      rcases List.mem_cons.mp hx with hx | hx
      · subst hx
        obtain ⟨ext, hext⟩ := runSavesEnh_extends rest (save_sneaker_data x catalog).2
        rw [hext]
        exact visible_mono _ _ _ (save_sneaker_visible x catalog)
      · exact ih _ x hx

theorem save_sneaker_noop (d : RawMeta) (catalog : List CatalogRow)
    (h : savedNameVisible catalog d) : save_sneaker_data d catalog = (false, catalog) := by
  unfold save_sneaker_data
  rcases h with h | ⟨r, hr, hc⟩
  · simp [h]
  · have hany : catalog.any
        (fun r => containsSub (pyLower r.name) (pyLower d.name)) = true :=
      List.any_eq_true.mpr ⟨r, hr, hc⟩
    by_cases hname : d.name = ""
    · simp [hname]
    · simp [hname, hany]

theorem runSavesEnh_noop (items : List RawMeta) (catalog : List CatalogRow)
    (h : ∀ d ∈ items, savedNameVisible catalog d) : runSavesEnh items catalog = catalog := by
  induction items with
  | nil => rfl
  | cons d rest ih =>
      rw [runSavesEnh, save_sneaker_noop d catalog (h d (List.mem_cons_self d rest))]
      exact ih fun x hx => h x (List.mem_cons_of_mem d hx)

theorem find?_append_some {α : Type} (p : α → Bool) (l1 l2 : List α) (a : α)
    (h : l1.find? p = some a) : (l1 ++ l2).find? p = some a := by
  induction l1 with
  | nil => cases h
  | cons x t ih =>
      by_cases hx : p x
      · rw [List.find?_cons_of_pos _ hx] at h
        simpa [List.find?_cons_of_pos _ hx] using h
      · rw [List.find?_cons_of_neg _ hx] at h
        simpa [List.find?_cons_of_neg _ hx] using ih h

theorem find?_append_none {α : Type} (p : α → Bool) (l1 l2 : List α)
    (h : l1.find? p = none) : (l1 ++ l2).find? p = l2.find? p := by
  induction l1 with
  | nil => rfl
  | cons x t ih =>
      by_cases hx : p x
      · rw [List.find?_cons_of_pos _ hx] at h; cases h
      · rw [List.find?_cons_of_neg _ hx] at h
        simpa [List.find?_cons_of_neg _ hx] using ih h

theorem driveParentMatches_self (parent : Option Nat) (id : Nat) (name : String) (b : Bool) :
    driveParentMatches parent { id := id, name := name, parent := parent, isFolder := b }
      = true := by
  cases parent <;> simp [driveParentMatches]

theorem get_or_create_stable (st : DriveState) (fn : String) (root : Option Nat)
    (t : Nat) (st1 : DriveState) (h : get_or_create_folder st fn root = (t, st1))
    (extra : List DriveFile) (m : Nat) :
    get_or_create_folder { files := st1.files ++ extra, freshId := m } fn root =
      (t, { files := st1.files ++ extra, freshId := m }) := by
  unfold get_or_create_folder at h ⊢
  cases hf : find_folder_by_name st fn root with
  | some g =>
      rw [hf] at h
      obtain ⟨ht, hst⟩ : g.id = t ∧ st = st1 := by
        constructor <;> [exact congrArg Prod.fst h; exact congrArg Prod.snd h]
      subst hst
      have hfind : find_folder_by_name { files := st.files ++ extra, freshId := m } fn root
          = some g := by
        unfold find_folder_by_name at hf ⊢
        exact find?_append_some _ _ _ _ hf
      rw [hfind]
      simp [ht]
  | none =>
      rw [hf] at h
      unfold create_folder at h
      obtain ⟨ht, hst⟩ : st.freshId = t ∧ _ = st1 := by
        constructor <;> [exact congrArg Prod.fst h; exact congrArg Prod.snd h]
      have hfiles : st1.files = st.files ++
          [{ id := st.freshId, name := fn, parent := root, isFolder := true }] := by
        rw [← hst]
      have hfind : find_folder_by_name { files := st1.files ++ extra, freshId := m } fn root
          = some { id := st.freshId, name := fn, parent := root, isFolder := true } := by
        unfold find_folder_by_name at hf ⊢
        rw [hfiles, List.append_assoc]
        rw [find?_append_none _ _ _ hf]
        simp [driveParentMatches_self]
      rw [hfind]
      simp [ht]

/-! Section: Claim theorems -/

/-- C1: the Content Dedup Engine classifies a pair of images as duplicate
exactly when the Hamming distance of their hashes is at most the threshold on
both computed variants (phash and dhash) simultaneously; with threshold 5,
distances (2, 3) give duplicate and distances (6, 1) give unique. -/
theorem dedup_similarity_rule :
    (∀ (h1 h2 : ImageHashes) (t : Nat),
        are_images_similar h1 h2 t = true ↔
          hammingDistance h1.phash h2.phash ≤ t ∧
            hammingDistance h1.dhash h2.dhash ≤ t) ∧
    hammingDistance (hashWithOnes 0) (hashWithOnes 2) = 2 ∧
    hammingDistance (hashWithOnes 0) (hashWithOnes 3) = 3 ∧
    are_images_similar
      { phash := hashWithOnes 0, dhash := hashWithOnes 0,
        ahash := hashWithOnes 0, whash := hashWithOnes 0 }
      { phash := hashWithOnes 2, dhash := hashWithOnes 3,
        ahash := hashWithOnes 0, whash := hashWithOnes 0 } 5 = true ∧
    hammingDistance (hashWithOnes 0) (hashWithOnes 6) = 6 ∧
    hammingDistance (hashWithOnes 0) (hashWithOnes 1) = 1 ∧
    are_images_similar
      { phash := hashWithOnes 0, dhash := hashWithOnes 0,
        ahash := hashWithOnes 0, whash := hashWithOnes 0 }
      { phash := hashWithOnes 6, dhash := hashWithOnes 1,
        ahash := hashWithOnes 0, whash := hashWithOnes 0 } 5 = false := by
  refine ⟨?_, by decide, by decide, by decide, by decide, by decide, by decide⟩
  intro h1 h2 t
  simp [are_images_similar]

/-- C2 counterexample: an item whose name is the empty string is saved by the
first run but invisible to `_load_existing_data` (falsy names are skipped),
so a second identical run inserts it again — the final catalog count differs
between one run (1) and two runs (2). -/
theorem ingestion_counterexample :
    (runIngestion [{ name := "", sku := none }] []).length = 1 ∧
    (runIngestion [{ name := "", sku := none }]
        (runIngestion [{ name := "", sku := none }] [])).length = 2 := by decide

/-- C2 amended: running the same ingestion twice in sequence leaves the
catalog of the comprehensive manager unchanged provided every incoming item
has a non-empty name (for empty names the duplicate check misses, see the
counterexample); the enhanced manager's save path is idempotent
unconditionally because it rejects falsy names itself. -/
theorem ingestion_idempotent :
    (∀ (items : List RawMeta) (catalog : List CatalogRow),
        (∀ d ∈ items, d.name ≠ "") →
        runIngestion items (runIngestion items catalog) = runIngestion items catalog) ∧
    (∀ (items : List RawMeta) (catalog : List CatalogRow),
        runSavesEnh items (runSavesEnh items catalog) = runSavesEnh items catalog) := by
  constructor
  · intro items catalog hall
    unfold runIngestion
    obtain ⟨hInv1, hkeys⟩ := runSaves_inv_mem items
      { catalog := catalog, processedNames := load_existing_data catalog }
      hall (fun k hk => hk)
    rw [runSaves_noop items _ ?hmem]
    case hmem =>
      intro d hd
      exact hInv1 _ (hkeys d hd)
  · intro items catalog
    exact runSavesEnh_noop items _ (runSavesEnh_visible items catalog)

/-- C2 witness: the amended idempotence at a concrete non-empty-name item. -/
theorem ingestion_idempotent_witness :
    runIngestion [{ name := "Air Jordan 1", sku := none }]
        (runIngestion [{ name := "Air Jordan 1", sku := none }] []) =
      runIngestion [{ name := "Air Jordan 1", sku := none }] [] :=
  ingestion_idempotent.1 _ _ (by decide)

/-- C3 counterexample: with a limit of 1 and a first request that raises, two
network calls are issued in one run — more than the configured limit —
because a raising `requests.post` is not counted. -/
theorem budget_counterexample :
    1 < (runScrapes 1 [NetOutcome.raised, NetOutcome.response 200 "ok"] 0).2 := by decide

/-- C3 amended: `api_requests` never exceeds the limit; once the counter is
at or above the limit every call returns `None` immediately without a network
call; a call below the limit always issues one network call, incrementing the
counter by exactly one when `requests.post` returns (any status) and leaving
it unchanged when `requests.post` raises; hence the number of issued network
calls in a run is bounded by the limit plus the number of raising calls, not
by the limit alone. -/
theorem budget_enforcement :
    (∀ limit outcomes start, start ≤ limit → (runScrapes limit outcomes start).1 ≤ limit) ∧
    (∀ limit outcome k, scrape_with_api limit outcome (limit + k) = (none, limit + k, false)) ∧
    (∀ limit n, n < limit → ∀ status body,
        scrape_with_api limit (NetOutcome.response status body) n =
          ((if status = 200 then some body else none), n + 1, true)) ∧
    (∀ limit n, n < limit →
        scrape_with_api limit NetOutcome.raised n = (none, n, true)) ∧
    (∀ limit outcomes start,
        (runScrapes limit outcomes start).2 ≤ (limit - start) + countRaised outcomes) := by
  refine ⟨fun l o s h => runScrapes_counter_le l o s h, ?_, ?_, ?_,
    fun l o s => runScrapes_issued_le l o s⟩
  · intro limit outcome k
    unfold scrape_with_api
    simp
  · intro limit n h status body
    unfold scrape_with_api
    simp [Nat.not_le.mpr h]
  · intro limit n h
    unfold scrape_with_api
    simp [Nat.not_le.mpr h]

/-- C3 witness: the amended budget properties at concrete runs with limit 2. -/
theorem budget_enforcement_witness :
    (runScrapes 2 [NetOutcome.response 200 "a", NetOutcome.response 200 "b",
        NetOutcome.response 200 "c"] 0).1 ≤ 2 ∧
    scrape_with_api 2 NetOutcome.raised (2 + 1) = (none, 2 + 1, false) ∧
    scrape_with_api 2 (NetOutcome.response 200 "b") 0 =
      ((if 200 = 200 then some "b" else none), 0 + 1, true) ∧
    scrape_with_api 2 NetOutcome.raised 1 = (none, 1, true) ∧
    (runScrapes 2 [NetOutcome.raised, NetOutcome.raised] 0).2 ≤ (2 - 0) +
      countRaised [NetOutcome.raised, NetOutcome.raised] :=
  ⟨budget_enforcement.1 2 _ 0 (by decide),
   budget_enforcement.2.1 2 NetOutcome.raised 1,
   budget_enforcement.2.2.1 2 0 (by decide) 200 "b",
   budget_enforcement.2.2.2.1 2 1 (by decide),
   budget_enforcement.2.2.2.2 2 _ 0⟩

/-- C4 counterexample: an incoming Adidas item with no SKU whose name is a
substring of an existing Nike entry's name.  The code's resolver matches it
to the Nike entry via the brand-blind `ilike` containment check, while the
spec's algorithm (exact normalized `(brand, name)`, then same-brand
containment) classifies it as new. -/
theorem resolver_order_counterexample :
    resolveExisting [exSneaker] exIncoming = some exSneaker ∧
    spec_resolve [exSneaker] exIncoming = none := by decide

/-- C4 amended: the resolver decides Match versus New in this order: first
exact match on the raw (unnormalised) SKU when a SKU is truthy; otherwise a
case-insensitive substring-containment match of the incoming name inside any
existing name, with no brand restriction and no exact `(brand, name)` step.
A Match is found exactly when one of those two lookups succeeds, and a
successful SKU lookup takes priority. -/
theorem resolver_order :
    (∀ catalog d, ((resolveExisting catalog d).isSome = true ↔
        (truthyStr d.sku = true ∧ ∃ s ∈ catalog, s.sku = some (d.sku.getD "")) ∨
        (truthyStr d.name = true ∧ ∃ s ∈ catalog,
            containsSub (pyLower s.name) (pyLower (d.name.getD "")) = true))) ∧
    (∀ catalog d, truthyStr d.sku = true →
        (∃ s ∈ catalog, s.sku = some (d.sku.getD "")) →
        ∃ s, resolveExisting catalog d = some s ∧ s.sku = some (d.sku.getD "")) := by
  constructor
  · intro catalog d
    unfold resolveExisting
    cases hsku : truthyStr d.sku with
    | false =>
        simp only [Bool.false_eq_true, if_false]
        cases hname : truthyStr d.name with
        | false => simp
        | true =>
            simp only [if_true]
            simp [findByNameIlike, List.find?_isSome]
    | true =>
        simp only [if_true]
        cases hfind : findBySku catalog (d.sku.getD "") with
        | some s =>
            have hmem := List.mem_of_find?_eq_some hfind
            have hp := List.find?_some hfind
            simp only [beq_iff_eq] at hp
            simp
            exact Or.inl ⟨s, hmem, hp⟩
        | none =>
            have hnone : ∀ s ∈ catalog, ¬(s.sku = some (d.sku.getD "")) := by
              intro s hs
              have := List.find?_eq_none.mp hfind s hs
              simpa using this
            cases hname : truthyStr d.name with
            | false =>
                simp only [Bool.false_eq_true, if_false]
                simp
                intro s hs hsk
                exact absurd hsk (hnone s hs)
            | true =>
                simp only [if_true]
                simp [findByNameIlike, List.find?_isSome]
                intro s hs hsk
                exact absurd hsk (hnone s hs)
  · intro catalog d htr ⟨s, hs, hsk⟩
    have hex : (findBySku catalog (d.sku.getD "")).isSome = true := by
      unfold findBySku
      rw [List.find?_isSome]
      exact ⟨s, hs, by simp [hsk]⟩
    obtain ⟨s2, hs2⟩ := Option.isSome_iff_exists.mp hex
    have hp := List.find?_some hs2
    simp only [beq_iff_eq] at hp
    refine ⟨s2, ?_, hp⟩
    unfold resolveExisting
    simp [htr, hs2]

/-- C4 witness: the SKU-priority branch of the amended resolver at a concrete
catalog and incoming record. -/
theorem resolver_order_witness :
    ∃ s, resolveExisting
        [{ id := 1, name := "Air Jordan 1 Retro", brand := "Nike", model := "Air Jordan",
           colorway := none, sku := some "DD1391-100", retail_price := none,
           release_date := none, description := none }]
        { name := some "Jordan 1", brand := some "Nike", colorway := none,
          sku := some "DD1391-100", retail_price := none, release_date := none,
          description := none, current_price := none, platform := none }
        = some s ∧
      s.sku = some (((some "DD1391-100" : Option String)).getD "") :=
  resolver_order.2 _ _ (by decide)
    ⟨{ id := 1, name := "Air Jordan 1 Retro", brand := "Nike", model := "Air Jordan",
       colorway := none, sku := some "DD1391-100", retail_price := none,
       release_date := none, description := none }, by decide, by decide⟩

/-- C5 counterexample: the existing row has an empty description and the
matching incoming record carries one, yet after processing the stored
description is still empty — empty fields are not filled in on a match. -/
theorem enrichment_counterexample :
    (resolveExisting exDB.sneakers exEnrich).isSome = true ∧
    exSneaker.description = none ∧
    exEnrich.description = some "Classic black and white colorway" ∧
    (process_sneaker_data exEnrich exDB).sneakers.map (fun s => s.description) = [none] := by
  decide

/-- C5 amended: when the resolver matches an incoming record to an existing
sneaker row, the `sneakers` table is left entirely unchanged: populated
fields are untouched, and empty fields are not filled in either (the
incoming data only contributes price-history and image rows). -/
theorem match_frames_existing_rows (d : SneakerData) (db : ScraperDB) (s : Sneaker)
    (h : resolveExisting db.sneakers d = some s) :
    (process_sneaker_data d db).sneakers = db.sneakers := by
  simp [process_sneaker_data, h]

/-- C5 witness: the frame property at the concrete matched record. -/
theorem match_frames_existing_rows_witness :
    (process_sneaker_data exEnrich exDB).sneakers = exDB.sneakers :=
  match_frames_existing_rows exEnrich exDB exSneaker (by decide)

/-- C6: the byte-size gate has inclusive boundaries — with a minimum of 5000
bytes a 4999-byte candidate is rejected and a 5000-byte one passes, and a
candidate whose size equals the maximum exactly also passes; likewise the
analyzer's quality check accepts file size exactly 5000 and rejects 4999 when
all other checks pass. -/
theorem byte_size_boundaries :
    (∀ maxBytes, byte_size_check 4999 5000 maxBytes = false) ∧
    (∀ maxBytes, 5000 ≤ maxBytes → byte_size_check 5000 5000 maxBytes = true) ∧
    (∀ minBytes maxBytes, minBytes ≤ maxBytes →
        byte_size_check maxBytes minBytes maxBytes = true) ∧
    (∀ (q : QualityMetrics) (sd : ShoeDetection), q.file_size = 4999 →
        is_high_quality_image (some q) sd = false) ∧
    (∀ (q : QualityMetrics) (sd : ShoeDetection),
        50000 ≤ q.resolution → (100 : ℚ) ≤ q.sharpness → q.file_size = 5000 →
        sd.is_likely_shoe = true → is_high_quality_image (some q) sd = true) := by
  refine ⟨?_, ?_, ?_, ?_, ?_⟩
  · intro m; simp [byte_size_check]
  · intro m hm; simp [byte_size_check]; omega
  · intro a b h; simp [byte_size_check]; omega
  · intro q sd h; simp [is_high_quality_image, h]
  · intro q sd h1 h2 h3 h4; simp [is_high_quality_image, h1, h2, h3, h4]

/-- C6 witness: the inclusive boundaries at the configured concrete bounds. -/
theorem byte_size_boundaries_witness :
    byte_size_check 4999 5000 (10 * 1024 * 1024) = false ∧
    byte_size_check 5000 5000 (10 * 1024 * 1024) = true ∧
    byte_size_check manager_max_file_size manager_min_file_size manager_max_file_size = true ∧
    is_high_quality_image (some { width := 300, height := 300, resolution := 90000,
                                  file_size := 4999, aspect := 1, sharpness := 150 })
      { is_likely_shoe := true, shoe_score := 2, non_shoe_score := 0 } = false ∧
    is_high_quality_image (some { width := 300, height := 300, resolution := 90000,
                                  file_size := 5000, aspect := 1, sharpness := 100 })
      { is_likely_shoe := true, shoe_score := 2, non_shoe_score := 0 } = true :=
  ⟨byte_size_boundaries.1 _,
   byte_size_boundaries.2.1 _ (by decide),
   byte_size_boundaries.2.2.1 _ _ (by decide),
   byte_size_boundaries.2.2.2.1 _ _ rfl,
   byte_size_boundaries.2.2.2.2 _ _ (by decide) (le_refl 100) rfl rfl⟩

/-- C7 counterexample: a `KeyboardInterrupt` (forced cancellation) during the
first phase of `run_comprehensive_collection` escapes the method without the
final report being generated. -/
theorem run_report_counterexample :
    (run_comprehensive_collection PhaseOutcome.interrupt PhaseOutcome.ok
        PhaseOutcome.ok).reportEmitted = false := rfl

/-- C7 amended: `Enhanced36HourCollector.run_collection` emits its final
report on every path (normal completion, caught exception, caught
interrupt), but `run_comprehensive_collection` emits its final report exactly
when all three phases complete normally — a phase exception or interrupt
skips the report. -/
theorem run_report_paths :
    (∀ o, (run_collection o).reportEmitted = true) ∧
    (∀ p1 p2 p3, (run_comprehensive_collection p1 p2 p3).reportEmitted = true ↔
        p1 = PhaseOutcome.ok ∧ p2 = PhaseOutcome.ok ∧ p3 = PhaseOutcome.ok) := by
  constructor
  · intro o; cases o <;> rfl
  · intro p1 p2 p3
    cases p1 <;> cases p2 <;> cases p3 <;> simp [run_comprehensive_collection]

/-- C8: the object-storage upload is idempotent by name — for every Drive
state, file name and folder, a second `upload_image` with the same name
returns the same external id as the first call, leaves the Drive state
unchanged, and performs no new upload. -/
theorem upload_image_idempotent (st : DriveState) (fileName : String)
    (folderName : Option String) (root : Option Nat) :
    (upload_image (upload_image st fileName folderName root).2.1 fileName folderName root).1 =
        (upload_image st fileName folderName root).1 ∧
    (upload_image (upload_image st fileName folderName root).2.1 fileName folderName root).2.1 =
        (upload_image st fileName folderName root).2.1 ∧
    (upload_image (upload_image st fileName folderName root).2.1 fileName folderName root).2.2 =
        false := by
  cases folderName with
  | none =>
      unfold upload_image
      cases hf : find_file_by_name st fileName root with
      | some f => simp [hf]
      | none =>
          simp only [hf]
          have hfind : find_file_by_name
              { files := st.files ++ [{ id := st.freshId, name := fileName, parent := root,
                                        isFolder := false }],
                freshId := st.freshId + 1 } fileName root =
              some { id := st.freshId, name := fileName, parent := root,
                     isFolder := false } := by
            unfold find_file_by_name at hf ⊢
            rw [find?_append_none _ _ _ hf]
            simp [driveParentMatches_self]
          simp [hfind]
  | some fn =>
      cases hg : get_or_create_folder st fn root with
      | mk t st1 =>
          unfold upload_image
          simp only [hg]
          cases hf : find_file_by_name st1 fileName (some t) with
          | some f =>
              have hg2 : get_or_create_folder st1 fn root = (t, st1) := by
                have := get_or_create_stable st fn root t st1 hg [] st1.freshId
                simpa using this
              simp [hf, hg2]
          | none =>
              simp only [hf]
              have hg2 : get_or_create_folder
                  { files := st1.files ++ [{ id := st1.freshId, name := fileName,
                                             parent := some t, isFolder := false }],
                    freshId := st1.freshId + 1 } fn root =
                  (t, { files := st1.files ++ [{ id := st1.freshId, name := fileName,
                                                 parent := some t, isFolder := false }],
                        freshId := st1.freshId + 1 }) :=
                get_or_create_stable st fn root t st1 hg _ _
              have hfind : find_file_by_name
                  { files := st1.files ++ [{ id := st1.freshId, name := fileName,
                                             parent := some t, isFolder := false }],
                    freshId := st1.freshId + 1 } fileName (some t) =
                  some { id := st1.freshId, name := fileName, parent := some t,
                         isFolder := false } := by
                unfold find_file_by_name at hf ⊢
                rw [find?_append_none _ _ _ hf]
                simp [driveParentMatches_self]
              simp [hg2, hfind]

/-- C9 counterexample: on a shoe-keyword URL, a decoding failure inside
`analyze_image_quality` is swallowed there and makes `detect_shoe_content`
return `is_likely_shoe = False` (the empty metrics give resolution 0), while
the same URL with successfully analyzed metrics yields `True` — so this
analysis failure does cause a content-based rejection. -/
theorem nonshoe_error_counterexample :
    (detect_shoe_content none "sneaker.jpg"
        (Except.error "cannot identify image file")).is_likely_shoe = false ∧
    keywordScore analyzer_shoe_keywords (pyLower "sneaker.jpg") = 1 ∧
    keywordScore analyzer_non_shoe_indicators (pyLower "sneaker.jpg") = 0 ∧
    (detect_shoe_content none "sneaker.jpg"
        (Except.ok { width := 400, height := 300, fileSize := 60000,
                     sharpness := 250 })).is_likely_shoe = true := by
  refine ⟨detect_shoe_decode_error _ _, by decide, by decide, ?_⟩
  have hs : keywordScore analyzer_shoe_keywords (pyLower "sneaker.jpg") = 1 := by decide
  have hn : keywordScore analyzer_non_shoe_indicators (pyLower "sneaker.jpg") = 0 := by decide
  simp [detect_shoe_content, analyze_image_quality, hs, hn]
  norm_num

/-- C9 amended: the `except` branch of `_is_non_shoe_image` keeps the image
(on an analysis error the result equals the URL-keyword check alone, so it is
`False` whenever no deny keyword occurs in the URL), and the `except` branch
of `detect_shoe_content` itself returns `is_likely_shoe = True`; but an error
swallowed inside `analyze_image_quality` reaches `detect_shoe_content` as
empty metrics and forces `is_likely_shoe = False` through the
`resolution < 10000` check, so that analysis failure does cause a
content-based rejection. -/
theorem nonshoe_error_branches :
    (∀ url e, (is_non_shoe_image url (Except.error e) = true ↔
        ∃ k ∈ manager_non_shoe_keywords, containsSub (pyLower url) k.toList = true)) ∧
    (∀ msg url decoded, detect_shoe_content (some msg) url decoded =
        { is_likely_shoe := true, shoe_score := 0, non_shoe_score := 0 }) ∧
    (∀ url e, (detect_shoe_content none url (Except.error e)).is_likely_shoe = false) := by
  refine ⟨?_, ?_, ?_⟩
  · intro url e
    simp [is_non_shoe_image]
  · intro msg url decoded; rfl
  · intro url e; exact detect_shoe_decode_error url e

/-- C10: `extract_price` is total and non-negative — for every input string
the result is a rational number at least 0, and it is exactly 0 whenever the
input is empty or contains no digit. -/
theorem extract_price_total_nonneg (s : String) :
    0 ≤ extract_price s ∧
      (s.toList.all (fun c => !c.isDigit) = true → extract_price s = 0) := by
  constructor
  · have key : ∀ (r : List Char) (c : Option (Char × Char)),
        (0 : ℚ) ≤ (digitsToNat r : ℚ) +
          (match c with
           | some (d1, d2) => ((10 * digitVal d1 + digitVal d2 : Nat) : ℚ) / 100
           | none => 0) := by
      intro r c
      have h1 : (0 : ℚ) ≤ (digitsToNat r : ℚ) := Nat.cast_nonneg _
      rcases c with _ | ⟨d1, d2⟩
      · simp
      · have h2 : (0 : ℚ) ≤ ((10 * digitVal d1 + digitVal d2 : Nat) : ℚ) / 100 := by
          positivity
        exact add_nonneg h1 h2
    rw [extract_price]
    split
    · exact le_refl 0
    · split
      · exact le_refl 0
      · exact key _ _
  · intro h
    have hall : ∀ c ∈ s.toList, c.isDigit = false := by
      intro c hc
      simpa using (List.all_eq_true.mp h) c hc
    have hfilter : ∀ c ∈ s.toList.filter (fun c => c ≠ ','), c.isDigit = false :=
      fun c hc => hall c (List.mem_of_mem_filter hc)
    rw [extract_price]
    split
    · rfl
    · rw [priceSearch_none _ hfilter]

/-- C10 witness: totality and the zero case at a digit-free input. -/
theorem extract_price_witness :
    0 ≤ extract_price "no digits here" ∧ extract_price "no digits here" = 0 :=
  ⟨(extract_price_total_nonneg "no digits here").1,
   (extract_price_total_nonneg "no digits here").2 (by decide)⟩

end SneakerScraper
